import Mathlib

/-!
Shallow embedding of the rg-crm backend (src/app/models.py, schemas.py,
crud.py, main.py) and proofs about its repository and analytics operations.

The relational store is modelled as lists of rows (one list per table plus
the order-shipping association table).  SQLAlchemy queries are translated
to list comprehensions: joins become nested `flatMap`/`filter`, GROUP BY +
COUNT becomes `sqlGroupCount`, ORDER BY becomes `List.insertionSort`,
LIMIT becomes `List.take`.  Timestamps are epoch seconds (`Nat`);
`extract('hour', ts)` is `hourOf`.  Monetary amounts (`Float` columns,
`float` pydantic fields) are modelled as `ℚ`.
-/

namespace RgCrm

/-- models.py: `OrderType` enumeration. -/
inductive OrderType where
  | IN_STORE
  | ONLINE
deriving DecidableEq, Repr

/-- models.py: `AddressType` enumeration. -/
inductive AddressType where
  | BILLING
  | SHIPPING
deriving DecidableEq, Repr

/-- models.py: `Customer` row.  `first_name`/`last_name` are nullable
columns ("Customer may opt out of PII"). -/
structure Customer where
  id : Nat
  telephone : String
  email : String
  first_name : Option String
  last_name : Option String
  created_at : Nat
  updated_at : Option Nat
deriving DecidableEq, Repr

/-- models.py: `Address` row. -/
structure Address where
  id : Nat
  customer_id : Nat
  type : AddressType
  street : String
  city : String
  state : String
  zip_code : String
  created_at : Nat
  updated_at : Option Nat
deriving DecidableEq, Repr

/-- models.py: `Order` row. -/
structure Order where
  id : Nat
  customer_id : Nat
  order_type : OrderType
  total_amount : ℚ
  billing_address_id : Nat
  created_at : Nat
  updated_at : Option Nat
deriving DecidableEq, Repr

/-- The relational store: the three tables plus the
`order_shipping_addresses` association table (order_id, address_id). -/
structure DB where
  customers : List Customer
  addresses : List Address
  orders : List Order
  order_shipping_addresses : List (Nat × Nat)
deriving DecidableEq, Repr

/-- schemas.py: `AddressCreate` request body. -/
structure AddressCreate where
  type : AddressType
  street : String
  city : String
  state : String
  zip_code : String
deriving DecidableEq, Repr

/-- schemas.py: `CustomerCreate` request body.  Pydantic declares
`first_name : str` and `last_name : str`, so both are required strings. -/
structure CustomerCreate where
  telephone : String
  email : String
  first_name : String
  last_name : String
  addresses : List AddressCreate
deriving DecidableEq, Repr

/-- A raw create-customer payload before pydantic validation: the name
fields may be absent/null. -/
structure CustomerPayload where
  telephone : String
  email : String
  first_name : Option String
  last_name : Option String
  addresses : List AddressCreate
deriving DecidableEq, Repr

/-- Pydantic validation of a raw payload against `CustomerCreate`: the
`str`-typed `first_name`/`last_name` fields reject a null/absent value. -/
def validateCustomerCreate (p : CustomerPayload) : Option CustomerCreate :=
  match p.first_name, p.last_name with
  | some f, some l =>
      some { telephone := p.telephone, email := p.email,
             first_name := f, last_name := l, addresses := p.addresses }
  | _, _ => none

/-- schemas.py: `OrderCreate` request body.  `total_amount : float` has no
non-negativity constraint. -/
structure OrderCreate where
  order_type : OrderType
  total_amount : ℚ
  billing_address_id : Nat
  shipping_address_ids : List Nat
deriving DecidableEq, Repr

/-- schemas.py: `CustomerOrderHistory` response. -/
structure CustomerOrderHistory where
  customer : Customer
  orders : List Order
deriving DecidableEq, Repr

/-- schemas.py: `ZipCodeAnalytics` response row. -/
structure ZipCodeAnalytics where
  zip_code : String
  order_count : Nat
deriving DecidableEq, Repr

/-- schemas.py: `InStoreAnalytics` response row. -/
structure InStoreAnalytics where
  hour : Nat
  order_count : Nat
deriving DecidableEq, Repr

/-- crud.py `get_top_in_store_customers` result row: the selected columns
`(Customer.id, first_name, last_name, count)`; the name columns are
nullable in the model. -/
structure TopCustomer where
  customer_id : Nat
  first_name : Option String
  last_name : Option String
  order_count : Nat
deriving DecidableEq, Repr

/-- Autoincrement primary-key generation: one more than the largest id in
use. -/
def nextId (ids : List Nat) : Nat :=
  ids.foldr max 0 + 1

/-- crud.py: `get_customer_by_email` — `.filter(email ==).first()`. -/
def get_customer_by_email (db : DB) (email : String) : Option Customer :=
  db.customers.find? (fun c => decide (c.email = email))

/-- crud.py: `get_customer_by_telephone`. -/
def get_customer_by_telephone (db : DB) (telephone : String) : Option Customer :=
  db.customers.find? (fun c => decide (c.telephone = telephone))

/-- crud.py: `create_customer` — insert the customer row, then one address
row per supplied address, in one transaction.  `now` is the server-side
`func.now()` timestamp. -/
def create_customer (db : DB) (customer : CustomerCreate) (now : Nat) :
    DB × Customer :=
  let cid := nextId (db.customers.map (fun c => c.id))
  let db_customer : Customer :=
    { id := cid, telephone := customer.telephone, email := customer.email,
      first_name := some customer.first_name,
      last_name := some customer.last_name,
      created_at := now, updated_at := none }
  let abase := nextId (db.addresses.map (fun a => a.id))
  let newAddresses := customer.addresses.mapIdx (fun i address =>
    { id := abase + i, customer_id := cid, type := address.type,
      street := address.street, city := address.city,
      state := address.state, zip_code := address.zip_code,
      created_at := now, updated_at := none : Address })
  ({ db with customers := db.customers ++ [db_customer],
             addresses := db.addresses ++ newAddresses },
   db_customer)

/-- main.py transport errors: 400 Conflict (duplicate email / telephone)
and 404 Not Found. -/
inductive ApiError where
  | conflictEmail
  | conflictTelephone
  | notFound
deriving DecidableEq, Repr

/-- main.py: `POST /customers/` — explicit duplicate pre-checks on email
then telephone, raising 400 before any write; otherwise delegate to
`crud.create_customer`. -/
def api_create_customer (db : DB) (customer : CustomerCreate) (now : Nat) :
    Except ApiError (DB × Customer) :=
  if (get_customer_by_email db customer.email).isSome then
    .error .conflictEmail
  else if (get_customer_by_telephone db customer.telephone).isSome then
    .error .conflictTelephone
  else
    .ok (create_customer db customer now)

/-- crud.py: `create_order` — insert the order row (billing address id
stored as given, no existence check), then batch-look-up the requested
shipping address ids and attach the addresses that exist. -/
def create_order (db : DB) (customer_id : Nat) (order : OrderCreate)
    (now : Nat) : DB × Order :=
  let oid := nextId (db.orders.map (fun o => o.id))
  let db_order : Order :=
    { id := oid, customer_id := customer_id, order_type := order.order_type,
      total_amount := order.total_amount,
      billing_address_id := order.billing_address_id,
      created_at := now, updated_at := none }
  let shipping_addresses :=
    if order.shipping_address_ids.isEmpty then []
    else db.addresses.filter (fun a => decide (a.id ∈ order.shipping_address_ids))
  ({ db with orders := db.orders ++ [db_order],
             order_shipping_addresses := db.order_shipping_addresses ++
               shipping_addresses.map (fun a => (oid, a.id)) },
   db_order)

/-- crud.py: `get_customer_order_history` — resolve by email or telephone,
return `None` when no customer matches, else the customer together with
all their orders (the `customer.orders` relationship). -/
def get_customer_order_history (db : DB) (customer_identifier : String)
    (is_email : Bool) : Option CustomerOrderHistory :=
  let customer :=
    if is_email then get_customer_by_email db customer_identifier
    else get_customer_by_telephone db customer_identifier
  match customer with
  | none => none
  | some c =>
      some { customer := c,
             orders := db.orders.filter (fun o => decide (o.customer_id = c.id)) }

/-- main.py: `GET /customers/history/` — 404 when the crud layer returns
no customer. -/
def api_get_customer_order_history (db : DB) (identifier : String)
    (is_email : Bool) : Except ApiError CustomerOrderHistory :=
  match get_customer_order_history db identifier is_email with
  | none => .error .notFound
  | some h => .ok h

/-- SQL GROUP BY + COUNT over a key list: one `(key, count)` pair per
distinct key, the count being the key's multiplicity in `all`. -/
def sqlGroupCountAux [DecidableEq κ] (all : List κ) : List κ → List (κ × Nat)
  | [] => []
  | k :: ks =>
      if k ∈ ks then sqlGroupCountAux all ks
      else (k, all.countP (fun x => decide (x = k))) :: sqlGroupCountAux all ks

/-- GROUP BY + COUNT over the rows' key list. -/
def sqlGroupCount [DecidableEq κ] (keys : List κ) : List (κ × Nat) :=
  sqlGroupCountAux keys keys

/-- crud.py `get_orders_by_zip_code`, billing branch join:
`Address JOIN Order ON Address.id == Order.billing_address_id`. -/
def billingZipRows (db : DB) : List (Address × Order) :=
  db.addresses.flatMap (fun a =>
    (db.orders.filter (fun o => decide (a.id = o.billing_address_id))).map
      (fun o => (a, o)))

/-- crud.py `get_orders_by_zip_code`, shipping branch join:
`Address JOIN order_shipping_addresses ON Address.id == address_id
JOIN Order ON order_id == Order.id`. -/
def shippingZipRows (db : DB) : List (Address × (Nat × Nat) × Order) :=
  db.addresses.flatMap (fun a =>
    (db.order_shipping_addresses.filter (fun r => decide (a.id = r.2))).flatMap
      (fun r =>
        (db.orders.filter (fun o => decide (r.1 = o.id))).map
          (fun o => (a, r, o))))

/-- crud.py: `get_orders_by_zip_code` — select the join branch, filter the
address type, group by zip code counting rows, order by count in the
requested direction. -/
def get_orders_by_zip_code (db : DB) (is_billing : Bool) (ascending : Bool) :
    List ZipCodeAnalytics :=
  let keys :=
    if is_billing then
      ((billingZipRows db).filter
        (fun p => decide (p.1.type = AddressType.BILLING))).map
        (fun p => p.1.zip_code)
    else
      ((shippingZipRows db).filter
        (fun p => decide (p.1.type = AddressType.SHIPPING))).map
        (fun p => p.1.zip_code)
  let grouped := sqlGroupCount keys
  let sorted :=
    if ascending then List.insertionSort (fun p q => p.2 ≤ q.2) grouped
    else List.insertionSort (fun p q => q.2 ≤ p.2) grouped
  sorted.map (fun p => { zip_code := p.1, order_count := p.2 })

/-- `extract('hour', created_at)` on an epoch-seconds timestamp. -/
def hourOf (t : Nat) : Nat :=
  t / 3600 % 24

/-- crud.py: `get_in_store_purchase_hours` — filter IN_STORE orders, group
by hour of `created_at` counting orders, order by count descending. -/
def get_in_store_purchase_hours (db : DB) : List InStoreAnalytics :=
  let keys :=
    (db.orders.filter (fun o => decide (o.order_type = OrderType.IN_STORE))).map
      (fun o => hourOf o.created_at)
  let grouped := sqlGroupCount keys
  let sorted := List.insertionSort (fun p q => q.2 ≤ p.2) grouped
  sorted.map (fun p => { hour := p.1, order_count := p.2 })

/-- crud.py: `get_top_in_store_customers` — join Customer to Order, filter
IN_STORE, group by (id, first_name, last_name) counting orders, order by
count descending, truncate to `limit`. -/
def get_top_in_store_customers (db : DB) (limit : Nat) : List TopCustomer :=
  let keys := db.customers.flatMap (fun c =>
    (db.orders.filter (fun o =>
      decide (o.customer_id = c.id ∧ o.order_type = OrderType.IN_STORE))).map
      (fun _ => (c.id, c.first_name, c.last_name)))
  let grouped := sqlGroupCount keys
  let sorted := List.insertionSort (fun p q => q.2 ≤ p.2) grouped
  (sorted.take limit).map (fun p =>
    { customer_id := p.1.1, first_name := p.1.2.1, last_name := p.1.2.2,
      order_count := p.2 })

/-- main.py: `GET /analytics/in-store/top-customers/` — calls the crud
operation with its default limit of 5. -/
def api_get_top_in_store_customers (db : DB) : List TopCustomer :=
  get_top_in_store_customers db 5

/-- Declarative count: orders whose billing address is a BILLING-typed
address with zip code `z`. -/
def billingZipOrderCount (db : DB) (z : String) : Nat :=
  db.orders.countP (fun o => db.addresses.any (fun a =>
    decide (a.id = o.billing_address_id ∧ a.type = AddressType.BILLING ∧
            a.zip_code = z)))

/-- Declarative count: order-shipping association rows whose address is a
SHIPPING-typed address with zip code `z`. -/
def shippingZipAssocCount (db : DB) (z : String) : Nat :=
  db.order_shipping_addresses.countP (fun r => db.addresses.any (fun a =>
    decide (a.id = r.2 ∧ a.type = AddressType.SHIPPING ∧ a.zip_code = z)))

/-- Declarative count: IN_STORE orders created in hour `h`. -/
def inStoreHourCount (db : DB) (h : Nat) : Nat :=
  db.orders.countP (fun o =>
    decide (o.order_type = OrderType.IN_STORE ∧ hourOf o.created_at = h))

/-- Declarative count: IN_STORE orders of customer `i`. -/
def inStoreOrderCountOf (db : DB) (i : Nat) : Nat :=
  db.orders.countP (fun o =>
    decide (o.customer_id = i ∧ o.order_type = OrderType.IN_STORE))

/-- Declarative count: customers having at least one IN_STORE order. -/
def customersWithInStoreOrders (db : DB) : Nat :=
  db.customers.countP (fun c => db.orders.any (fun o =>
    decide (o.customer_id = c.id ∧ o.order_type = OrderType.IN_STORE)))

/-- The number of distinct elements of a list (what GROUP BY yields one
group per). -/
def numDistinct {κ : Type} [DecidableEq κ] : List κ → Nat
  | [] => 0
  | k :: ks => if k ∈ ks then numDistinct ks else numDistinct ks + 1

instance instSndLeTotal {κ : Type} :
    IsTotal (κ × Nat) (fun p q => p.2 ≤ q.2) :=
  ⟨fun a b => Nat.le_total a.2 b.2⟩

instance instSndLeTrans {κ : Type} :
    IsTrans (κ × Nat) (fun p q => p.2 ≤ q.2) :=
  ⟨fun _ _ _ => Nat.le_trans⟩

instance instSndGeTotal {κ : Type} :
    IsTotal (κ × Nat) (fun p q => q.2 ≤ p.2) :=
  ⟨fun a b => Nat.le_total b.2 a.2⟩

instance instSndGeTrans {κ : Type} :
    IsTrans (κ × Nat) (fun p q => q.2 ≤ p.2) :=
  ⟨fun _ _ _ h h' => Nat.le_trans h' h⟩

/-! ### Infrastructure lemmas about grouping, counting and sorting -/

theorem sqlGroupCountAux_mem {κ : Type} [DecidableEq κ] (all : List κ)
    (l : List κ) (z : κ) (c : Nat) :
    (z, c) ∈ sqlGroupCountAux all l ↔
      z ∈ l ∧ c = all.countP (fun x => decide (x = z)) := by
  induction l with
  | nil => simp [sqlGroupCountAux]
  | cons k ks ih =>
      by_cases hk : k ∈ ks
      · simp only [sqlGroupCountAux, if_pos hk, ih, List.mem_cons]
        constructor
        · rintro ⟨hz, hc⟩; exact ⟨Or.inr hz, hc⟩
        · rintro ⟨hz | hz, hc⟩
          · subst hz; exact ⟨hk, hc⟩
          · exact ⟨hz, hc⟩
      · simp only [sqlGroupCountAux, if_neg hk, List.mem_cons, ih,
          Prod.mk.injEq]
        constructor
        · rintro (⟨hz, hc⟩ | ⟨hz, hc⟩)
          · subst hz; exact ⟨Or.inl rfl, hc⟩
          · exact ⟨Or.inr hz, hc⟩
        · rintro ⟨hz | hz, hc⟩
          · subst hz; exact Or.inl ⟨rfl, hc⟩
          · exact Or.inr ⟨hz, hc⟩

theorem sqlGroupCount_mem {κ : Type} [DecidableEq κ] (keys : List κ)
    (z : κ) (c : Nat) :
    (z, c) ∈ sqlGroupCount keys ↔
      z ∈ keys ∧ c = keys.countP (fun x => decide (x = z)) :=
  sqlGroupCountAux_mem keys keys z c

theorem sqlGroupCountAux_length {κ : Type} [DecidableEq κ] (all : List κ)
    (l : List κ) : (sqlGroupCountAux all l).length = numDistinct l := by
  induction l with
  | nil => rfl
  | cons k ks ih =>
      by_cases hk : k ∈ ks
      · simp [sqlGroupCountAux, numDistinct, if_pos hk, ih]
      · simp [sqlGroupCountAux, numDistinct, if_neg hk, ih]

theorem countP_pos_of_mem {κ : Type} [DecidableEq κ] {l : List κ} {z : κ}
    (hz : z ∈ l) : l.countP (fun x => decide (x = z)) ≠ 0 := by
  intro h
  have := List.countP_eq_zero.mp h z hz
  simp at this

theorem mem_of_countP_pos {κ : Type} [DecidableEq κ] {l : List κ} {z : κ}
    (h : l.countP (fun x => decide (x = z)) ≠ 0) : z ∈ l := by
  by_contra hz
  apply h
  refine List.countP_eq_zero.mpr (fun a ha hq => ?_)
  exact hz (of_decide_eq_true hq ▸ ha)

theorem countP_unique_key {α : Type} (key : α → Nat) (q : α → Bool) (n : Nat)
    (hq : ∀ a, q a = true → key a = n) :
    ∀ A : List α, (A.map key).Nodup →
      A.countP q = if A.any q then 1 else 0 := by
  intro A
  induction A with
  | nil => simp
  | cons a A ih =>
      intro hnd
      rw [List.map_cons, List.nodup_cons] at hnd
      obtain ⟨hka, hnd'⟩ := hnd
      cases hqa : q a with
      | false =>
          rw [List.countP_cons, List.any_cons, hqa]
          simp only [Bool.false_or, if_neg Bool.false_ne_true, Nat.add_zero]
          exact ih hnd'
      | true =>
          have hz : A.countP q = 0 := by
            refine List.countP_eq_zero.mpr (fun x hx hqx => ?_)
            have hkey : key x = key a := (hq x hqx).trans (hq a hqa).symm
            have hmm : key x ∈ A.map key := List.mem_map_of_mem key hx
            rw [hkey] at hmm
            exact hka hmm
          rw [List.countP_cons, List.any_cons, hqa, hz]
          simp

theorem sum_map_zero_fn {α : Type} (A : List α) :
    (A.map (fun _ => (0 : Nat))).sum = 0 := by
  induction A with
  | nil => rfl
  | cons a A ih => simp [ih]

theorem sum_map_add_fn {α : Type} (f g : α → Nat) (A : List α) :
    (A.map (fun a => f a + g a)).sum = (A.map f).sum + (A.map g).sum := by
  induction A with
  | nil => rfl
  | cons a A ih =>
      simp only [List.map_cons, List.sum_cons, ih]
      omega

theorem sum_map_indicator {α : Type} (q : α → Bool) (A : List α) :
    (A.map (fun a => if q a then 1 else 0)).sum = A.countP q := by
  induction A with
  | nil => rfl
  | cons a A ih =>
      cases h : q a <;>
        simp only [List.map_cons, List.sum_cons, h, if_true, if_false,
          List.countP_cons, ih] <;> omega

theorem sum_countP_eq_countP_any {α β : Type} (A : List α) (r : α → β → Bool)
    (hone : ∀ b, A.countP (fun a => r a b) =
      if A.any (fun a => r a b) then 1 else 0) :
    ∀ O : List β, (A.map (fun a => O.countP (r a))).sum =
      O.countP (fun b => A.any (fun a => r a b)) := by
  intro O
  induction O with
  | nil =>
      simp only [List.countP_nil]
      exact sum_map_zero_fn A
  | cons o O ih =>
      simp only [List.countP_cons]
      rw [sum_map_add_fn, ih, sum_map_indicator, hone o]

theorem countP_flatMap {α β : Type} (p : β → Bool) (f : α → List β)
    (A : List α) :
    (A.flatMap f).countP p = (A.map (fun a => (f a).countP p)).sum := by
  induction A with
  | nil => rfl
  | cons a A ih => simp [List.flatMap_cons, List.countP_append, ih]

theorem sum_map_ite_zero {α : Type} (q : α → Bool) (n : α → Nat)
    (A : List α) (h : ∀ a ∈ A, q a = false) :
    (A.map (fun a => if q a then n a else 0)).sum = 0 := by
  induction A with
  | nil => rfl
  | cons a A ih =>
      simp only [List.map_cons, List.sum_cons, h a (List.mem_cons_self a A),
        if_neg Bool.false_ne_true, Nat.zero_add]
      exact ih (fun x hx => h x (List.mem_cons_of_mem a hx))

theorem sum_map_ite_unique {α : Type} (key : α → Nat) (q : α → Bool)
    (n : α → Nat) (a₀ : α) (hq : ∀ a, q a = true → key a = key a₀)
    (hq₀ : q a₀ = true) :
    ∀ A : List α, (A.map key).Nodup → a₀ ∈ A →
      (A.map (fun a => if q a then n a else 0)).sum = n a₀ := by
  intro A
  induction A with
  | nil => intro _ h; exact absurd h (List.not_mem_nil a₀)
  | cons a A ih =>
      intro hnd hmem
      rw [List.map_cons, List.nodup_cons] at hnd
      obtain ⟨hka, hnd'⟩ := hnd
      rcases List.mem_cons.mp hmem with rfl | hmem'
      · have hz : ∀ x ∈ A, q x = false := by
          intro x hx
          cases hqx : q x with
          | false => rfl
          | true =>
              have hkey : key x = key a₀ := hq x hqx
              have hmm : key x ∈ A.map key := List.mem_map_of_mem key hx
              rw [hkey] at hmm
              exact absurd hmm hka
        simp only [List.map_cons, List.sum_cons, hq₀, if_true]
        rw [sum_map_ite_zero q n A hz]
        omega
      · cases hqa : q a with
        | false =>
            simp only [List.map_cons, List.sum_cons, hqa,
              if_neg Bool.false_ne_true, Nat.zero_add]
            exact ih hnd' hmem'
        | true =>
            have hkey : key a = key a₀ := hq a hqa
            have hmm : key a₀ ∈ A.map key := List.mem_map_of_mem key hmem'
            rw [← hkey] at hmm
            exact absurd hmm hka

theorem mem_sortedGroup {κ : Type} [DecidableEq κ]
    (le : κ × Nat → κ × Nat → Prop) [DecidableRel le] (keys : List κ)
    (z : κ) (c : Nat) :
    (z, c) ∈ List.insertionSort le (sqlGroupCount keys) ↔
      (c = keys.countP (fun x => decide (x = z)) ∧ c ≠ 0) := by
  rw [List.mem_insertionSort, sqlGroupCount_mem]
  constructor
  · rintro ⟨hz, rfl⟩
    exact ⟨rfl, countP_pos_of_mem hz⟩
  · rintro ⟨rfl, hc⟩
    exact ⟨mem_of_countP_pos hc, rfl⟩

/-! ### Claim theorems -/

/-- C1: creating an order with a list of shipping address ids attaches
exactly the subset of those ids that match existing Address rows (resolved
by one batch lookup); ids with no matching Address are silently dropped
rather than rejected, and the call still succeeds, persisting the order. -/
theorem create_order_attaches_existing_subset (db : DB) (customer_id : Nat)
    (order : OrderCreate) (now : Nat) :
    (create_order db customer_id order now).1.orders =
      db.orders ++ [(create_order db customer_id order now).2] ∧
    ∀ aid : Nat,
      ((create_order db customer_id order now).2.id, aid) ∈
          (create_order db customer_id order now).1.order_shipping_addresses ↔
        (((create_order db customer_id order now).2.id, aid) ∈
            db.order_shipping_addresses ∨
         (aid ∈ order.shipping_address_ids ∧
          ∃ a ∈ db.addresses, a.id = aid)) := by
  constructor
  · simp [create_order]
  · intro aid
    by_cases hemp : order.shipping_address_ids.isEmpty
    · rw [List.isEmpty_iff] at hemp
      simp [create_order, hemp]
    · simp only [create_order, if_neg hemp, List.mem_append, List.mem_map,
        List.mem_filter, decide_eq_true_eq, Prod.mk.injEq, true_and]
      constructor
      · rintro (h | ⟨a, ⟨ha, hid⟩, rfl⟩)
        · exact Or.inl h
        · exact Or.inr ⟨hid, a, ha, rfl⟩
      · rintro (h | ⟨hin, a, ha, rfl⟩)
        · exact Or.inl h
        · exact Or.inr ⟨a, ⟨ha, hin⟩, rfl⟩

/-- C4 counterexample: the create-order operation accepts a negative total
amount — on an empty store, an order with total_amount = -1 is persisted,
and its stored amount is negative. -/
theorem create_order_negative_amount_accepted :
    (create_order ⟨[], [], [], []⟩ 1
        ⟨OrderType.ONLINE, -1, 1, []⟩ 0).2 ∈
      (create_order ⟨[], [], [], []⟩ 1
        ⟨OrderType.ONLINE, -1, 1, []⟩ 0).1.orders ∧
    (create_order ⟨[], [], [], []⟩ 1
        ⟨OrderType.ONLINE, -1, 1, []⟩ 0).2.total_amount < 0 := by
  constructor
  · simp [create_order]
  · norm_num [create_order]

/-- C4 amended: the total amount is stored verbatim with no sign
validation: every create-order call succeeds and persists an order whose
total_amount equals the input amount, whatever its sign. -/
theorem create_order_total_amount_stored_verbatim (db : DB)
    (customer_id : Nat) (order : OrderCreate) (now : Nat) :
    (create_order db customer_id order now).2 ∈
      (create_order db customer_id order now).1.orders ∧
    (create_order db customer_id order now).2.total_amount =
      order.total_amount := by
  constructor
  · simp [create_order]
  · rfl

/-- C2: after a successful create-customer call, a second create attempt
with the same email or the same telephone is rejected with a Conflict
error (no partial write happens: the error is raised by the pre-check
before any insert), the first customer's row is present with its data
unchanged, and exactly one customer row exists for that email and for that
telephone. -/
theorem duplicate_customer_rejected (db : DB) (c c2 : CustomerCreate)
    (now now2 : Nat) (db' : DB) (cust : Customer)
    (h1 : api_create_customer db c now = .ok (db', cust))
    (hdup : c2.email = c.email ∨ c2.telephone = c.telephone) :
    (∃ e, api_create_customer db' c2 now2 = .error e) ∧
    cust ∈ db'.customers ∧
    cust.telephone = c.telephone ∧ cust.email = c.email ∧
    cust.first_name = some c.first_name ∧
    cust.last_name = some c.last_name ∧
    db'.customers.countP (fun x => decide (x.email = c.email)) = 1 ∧
    db'.customers.countP (fun x => decide (x.telephone = c.telephone)) = 1 := by
  unfold api_create_customer at h1
  by_cases he : (get_customer_by_email db c.email).isSome
  · rw [if_pos he] at h1; cases h1
  rw [if_neg he] at h1
  by_cases ht : (get_customer_by_telephone db c.telephone).isSome
  · rw [if_pos ht] at h1; cases h1
  rw [if_neg ht] at h1
  injection h1 with h1'
  have hdb' : db' = (create_customer db c now).1 := by rw [h1']
  have hcust : cust = (create_customer db c now).2 := by rw [h1']
  subst hdb'
  subst hcust
  have henone : get_customer_by_email db c.email = none :=
    Option.not_isSome_iff_eq_none.mp he
  have htnone : get_customer_by_telephone db c.telephone = none :=
    Option.not_isSome_iff_eq_none.mp ht
  have hemail0 : ∀ x ∈ db.customers, ¬ x.email = c.email := by
    intro x hx
    have := List.find?_eq_none.mp henone x hx
    simpa using this
  have htel0 : ∀ x ∈ db.customers, ¬ x.telephone = c.telephone := by
    intro x hx
    have := List.find?_eq_none.mp htnone x hx
    simpa using this
  have hsplit : (create_customer db c now).1.customers =
      db.customers ++ [(create_customer db c now).2] := by
    simp [create_customer]
  have hmem : (create_customer db c now).2 ∈
      (create_customer db c now).1.customers := by
    rw [hsplit]
    exact List.mem_append_right _ (List.mem_singleton_self _)
  have hce : (create_customer db c now).2.email = c.email := by
    simp [create_customer]
  have hct : (create_customer db c now).2.telephone = c.telephone := by
    simp [create_customer]
  refine ⟨?_, hmem, hct, hce, by simp [create_customer],
    by simp [create_customer], ?_, ?_⟩
  · rcases hdup with hde | hdt
    · refine ⟨ApiError.conflictEmail, ?_⟩
      have hsome : (get_customer_by_email
          ((create_customer db c now).1) c2.email).isSome := by
        rw [get_customer_by_email, List.find?_isSome]
        exact ⟨(create_customer db c now).2, hmem, by simp [hce, hde]⟩
      simp [api_create_customer, hsome]
    · by_cases he2 : (get_customer_by_email
          ((create_customer db c now).1) c2.email).isSome
      · exact ⟨ApiError.conflictEmail, by simp [api_create_customer, he2]⟩
      · refine ⟨ApiError.conflictTelephone, ?_⟩
        have hsome : (get_customer_by_telephone
            ((create_customer db c now).1) c2.telephone).isSome := by
          rw [get_customer_by_telephone, List.find?_isSome]
          exact ⟨(create_customer db c now).2, hmem, by simp [hct, hdt]⟩
        simp [api_create_customer, he2, hsome]
  · rw [hsplit, List.countP_append]
    have h0 : db.customers.countP (fun x => decide (x.email = c.email)) = 0 :=
      List.countP_eq_zero.mpr (fun x hx => by simpa using hemail0 x hx)
    rw [h0]
    simp [List.countP_cons, hce]
  · rw [hsplit, List.countP_append]
    have h0 : db.customers.countP
        (fun x => decide (x.telephone = c.telephone)) = 0 :=
      List.countP_eq_zero.mpr (fun x hx => by simpa using htel0 x hx)
    rw [h0]
    simp [List.countP_cons, hct]

/-- Witness for C2: on an empty store, create a customer, then attempt the
same creation again; the second attempt is rejected and one row exists. -/
theorem duplicate_customer_rejected_witness :
    (∃ e, api_create_customer
        ⟨[{ id := 1, telephone := "1234567890", email := "test@example.com",
            first_name := some "John", last_name := some "Doe",
            created_at := 0, updated_at := none }], [], [], []⟩
        ⟨"1234567890", "test@example.com", "John", "Doe", []⟩ 1 =
          .error e) ∧
    ({ id := 1, telephone := "1234567890", email := "test@example.com",
       first_name := some "John", last_name := some "Doe",
       created_at := 0, updated_at := none } : Customer) ∈
      (⟨[{ id := 1, telephone := "1234567890", email := "test@example.com",
           first_name := some "John", last_name := some "Doe",
           created_at := 0, updated_at := none }], [], [], []⟩ : DB).customers ∧
    ("1234567890" : String) = "1234567890" ∧
    ("test@example.com" : String) = "test@example.com" ∧
    (some "John" : Option String) = some "John" ∧
    (some "Doe" : Option String) = some "Doe" ∧
    (⟨[{ id := 1, telephone := "1234567890", email := "test@example.com",
         first_name := some "John", last_name := some "Doe",
         created_at := 0, updated_at := none }], [], [], []⟩ : DB).customers.countP
      (fun x => decide (x.email = "test@example.com")) = 1 ∧
    (⟨[{ id := 1, telephone := "1234567890", email := "test@example.com",
         first_name := some "John", last_name := some "Doe",
         created_at := 0, updated_at := none }], [], [], []⟩ : DB).customers.countP
      (fun x => decide (x.telephone = "1234567890")) = 1 :=
  duplicate_customer_rejected ⟨[], [], [], []⟩
    ⟨"1234567890", "test@example.com", "John", "Doe", []⟩
    ⟨"1234567890", "test@example.com", "John", "Doe", []⟩
    0 1 _ _ rfl (Or.inl rfl)

/-- C3: for a customer that exists, order-history returns the customer
together with all their orders — the empty list when they have none — as
a success result; for an identifier (email or telephone per the is-email
flag) matching no customer it returns not-found; the success-with-empty
result and the not-found result are distinguishable. -/
theorem order_history_empty_vs_not_found (db : DB) (identifier : String)
    (is_email : Bool) :
    (∀ c, (if is_email then get_customer_by_email db identifier
           else get_customer_by_telephone db identifier) = some c →
       api_get_customer_order_history db identifier is_email =
         .ok { customer := c,
               orders := db.orders.filter
                 (fun o => decide (o.customer_id = c.id)) }) ∧
    ((if is_email then get_customer_by_email db identifier
      else get_customer_by_telephone db identifier) = none →
       api_get_customer_order_history db identifier is_email =
         .error ApiError.notFound) ∧
    (∀ h : CustomerOrderHistory,
       (Except.ok h : Except ApiError CustomerOrderHistory) ≠
         .error ApiError.notFound) := by
  refine ⟨?_, ?_, ?_⟩
  · intro c hc
    simp [api_get_customer_order_history, get_customer_order_history, hc]
  · intro hc
    simp [api_get_customer_order_history, get_customer_order_history, hc]
  · intro h hcontr
    cases hcontr

/-- Witness for C3: a store with one customer and no orders — history by
their email is a success with an empty order list; history by an unknown
email is not-found. -/
theorem order_history_empty_vs_not_found_witness :
    api_get_customer_order_history
      ⟨[{ id := 1, telephone := "1234567890", email := "test@example.com",
          first_name := some "John", last_name := some "Doe",
          created_at := 0, updated_at := none }], [], [], []⟩
      "test@example.com" true =
      .ok { customer :=
              { id := 1, telephone := "1234567890",
                email := "test@example.com", first_name := some "John",
                last_name := some "Doe", created_at := 0,
                updated_at := none },
            orders := [] } ∧
    api_get_customer_order_history
      ⟨[{ id := 1, telephone := "1234567890", email := "test@example.com",
          first_name := some "John", last_name := some "Doe",
          created_at := 0, updated_at := none }], [], [], []⟩
      "nobody@example.com" true = .error ApiError.notFound :=
  ⟨(order_history_empty_vs_not_found
      ⟨[{ id := 1, telephone := "1234567890", email := "test@example.com",
          first_name := some "John", last_name := some "Doe",
          created_at := 0, updated_at := none }], [], [], []⟩
      "test@example.com" true).1
    { id := 1, telephone := "1234567890", email := "test@example.com",
      first_name := some "John", last_name := some "Doe",
      created_at := 0, updated_at := none } rfl,
   (order_history_empty_vs_not_found
      ⟨[{ id := 1, telephone := "1234567890", email := "test@example.com",
          first_name := some "John", last_name := some "Doe",
          created_at := 0, updated_at := none }], [], [], []⟩
      "nobody@example.com" true).2.1 rfl⟩

/-- C5: a create-customer payload whose first and last name are absent is
rejected by the request-schema validation (pydantic `str` fields), even
though the Customer model's columns are nullable and a stored customer
with null names is representable. -/
theorem create_customer_null_names_rejected :
    (validateCustomerCreate
      { telephone := "1234567890", email := "user@example.com",
        first_name := none, last_name := none, addresses := [] } = none) ∧
    ∃ c : Customer, c.first_name = none ∧ c.last_name = none :=
  ⟨rfl, ⟨⟨1, "t", "e", none, none, 0, none⟩, rfl, rfl⟩⟩

/-- C9: the in-store purchase-hour distribution contains, for each hour of
day, exactly the count of IN_STORE orders created in that hour; hours with
zero in-store orders are absent (never present with count 0); every
reported hour lies in 0–23; and the output is sorted descending by
count. -/
theorem in_store_hours_characterization (db : DB) :
    (∀ h c, ({ hour := h, order_count := c } : InStoreAnalytics) ∈
        get_in_store_purchase_hours db ↔
      (c = inStoreHourCount db h ∧ c ≠ 0)) ∧
    (∀ p ∈ get_in_store_purchase_hours db, p.hour < 24) ∧
    List.Sorted (fun p q : InStoreAnalytics => q.order_count ≤ p.order_count)
      (get_in_store_purchase_hours db) := by
  have hkeys : ∀ h : Nat,
      ((db.orders.filter
        (fun o => decide (o.order_type = OrderType.IN_STORE))).map
        (fun o => hourOf o.created_at)).countP (fun x => decide (x = h)) =
      inStoreHourCount db h := by
    intro h
    rw [List.countP_map, List.countP_filter, inStoreHourCount]
    congr 1
    funext o
    simp only [Function.comp]
    rw [Bool.decide_and]
    exact Bool.and_comm _ _
  refine ⟨?_, ?_, ?_⟩
  · intro h c
    simp only [get_in_store_purchase_hours]
    rw [List.mem_map]
    constructor
    · rintro ⟨p, hp, hpe⟩
      obtain ⟨z, k⟩ := p
      obtain ⟨h1, h2⟩ := (InStoreAnalytics.mk.injEq _ _ _ _).mp hpe.symm
      subst h1
      subst h2
      rw [mem_sortedGroup] at hp
      exact ⟨by rw [hp.1, hkeys], hp.2⟩
    · rintro ⟨hc, hne⟩
      refine ⟨(h, c), ?_, rfl⟩
      rw [mem_sortedGroup]
      exact ⟨by rw [hc, hkeys], hne⟩
  · intro p hp
    simp only [get_in_store_purchase_hours] at hp
    rw [List.mem_map] at hp
    obtain ⟨q, hq, rfl⟩ := hp
    obtain ⟨z, k⟩ := q
    rw [mem_sortedGroup] at hq
    have hz : z ∈ (db.orders.filter
        (fun o => decide (o.order_type = OrderType.IN_STORE))).map
        (fun o => hourOf o.created_at) := by
      apply mem_of_countP_pos
      rw [← hq.1]
      exact hq.2
    rw [List.mem_map] at hz
    obtain ⟨o, _, rfl⟩ := hz
    exact Nat.mod_lt _ (by norm_num)
  · simp only [get_in_store_purchase_hours]
    exact List.Pairwise.map _ (fun a b hab => hab)
      (List.sorted_insertionSort _ _)

theorem billing_keys_count (db : DB) (z : String)
    (hnd : (db.addresses.map (fun a => a.id)).Nodup) :
    (((billingZipRows db).filter
        (fun p => decide (p.1.type = AddressType.BILLING))).map
        (fun p => p.1.zip_code)).countP (fun x => decide (x = z)) =
      billingZipOrderCount db z := by
  rw [List.countP_map, List.countP_filter, billingZipRows, countP_flatMap]
  simp only [List.countP_map, List.countP_filter, Function.comp]
  have hone : ∀ o : Order, db.addresses.countP
      (fun a => (decide (a.zip_code = z) &&
        decide (a.type = AddressType.BILLING)) &&
        decide (a.id = o.billing_address_id)) =
      if db.addresses.any (fun a => (decide (a.zip_code = z) &&
        decide (a.type = AddressType.BILLING)) &&
        decide (a.id = o.billing_address_id)) then 1 else 0 := by
    intro o
    refine countP_unique_key (fun a => a.id) _ o.billing_address_id
      ?_ db.addresses hnd
    intro a ha
    exact of_decide_eq_true ((Bool.and_eq_true _ _).mp ha).2
  rw [sum_countP_eq_countP_any db.addresses _ hone db.orders]
  rw [billingZipOrderCount]
  congr 1
  funext o
  congr 1
  funext a
  simp only [Bool.decide_and]
  cases h1 : decide (a.zip_code = z) <;>
    cases h2 : decide (a.type = AddressType.BILLING) <;>
      cases h3 : decide (a.id = o.billing_address_id) <;> simp

/-- C6: the billing-zip aggregation reports, for each zip code, exactly
the number of orders whose billing address is an existing BILLING-typed
address with that zip (zips with zero such orders are absent), and the
output is sorted by count ascending when the ascending flag is set,
descending otherwise. -/
theorem orders_by_billing_zip_characterization (db : DB) (ascending : Bool)
    (hnd : (db.addresses.map (fun a => a.id)).Nodup) :
    (∀ z c, ({ zip_code := z, order_count := c } : ZipCodeAnalytics) ∈
        get_orders_by_zip_code db true ascending ↔
      (c = billingZipOrderCount db z ∧ c ≠ 0)) ∧
    (ascending = true →
      List.Sorted (fun p q : ZipCodeAnalytics => p.order_count ≤ q.order_count)
        (get_orders_by_zip_code db true ascending)) ∧
    (ascending = false →
      List.Sorted (fun p q : ZipCodeAnalytics => q.order_count ≤ p.order_count)
        (get_orders_by_zip_code db true ascending)) := by
  refine ⟨?_, ?_, ?_⟩
  · intro z c
    have hk := billing_keys_count db z hnd
    cases ascending with
    | false =>
        simp only [get_orders_by_zip_code, reduceIte]
        rw [if_neg Bool.false_ne_true, List.mem_map]
        constructor
        · rintro ⟨p, hp, hpe⟩
          obtain ⟨zz, k⟩ := p
          obtain ⟨h1, h2⟩ := (ZipCodeAnalytics.mk.injEq _ _ _ _).mp hpe.symm
          subst h1
          subst h2
          rw [mem_sortedGroup] at hp
          exact ⟨by rw [hp.1, hk], hp.2⟩
        · rintro ⟨hc, hne⟩
          refine ⟨(z, c), ?_, rfl⟩
          rw [mem_sortedGroup]
          exact ⟨by rw [hc, hk], hne⟩
    | true =>
        simp only [get_orders_by_zip_code, reduceIte]
        rw [List.mem_map]
        constructor
        · rintro ⟨p, hp, hpe⟩
          obtain ⟨zz, k⟩ := p
          obtain ⟨h1, h2⟩ := (ZipCodeAnalytics.mk.injEq _ _ _ _).mp hpe.symm
          subst h1
          subst h2
          rw [mem_sortedGroup] at hp
          exact ⟨by rw [hp.1, hk], hp.2⟩
        · rintro ⟨hc, hne⟩
          refine ⟨(z, c), ?_, rfl⟩
          rw [mem_sortedGroup]
          exact ⟨by rw [hc, hk], hne⟩
  · rintro rfl
    simp only [get_orders_by_zip_code, reduceIte]
    exact List.Pairwise.map _ (fun a b hab => hab)
      (List.sorted_insertionSort _ _)
  · rintro rfl
    simp only [get_orders_by_zip_code, reduceIte]
    rw [if_neg Bool.false_ne_true]
    exact List.Pairwise.map _ (fun a b hab => hab)
      (List.sorted_insertionSort _ _)

theorem sum_map_eq_length {α : Type} (f : α → Nat) (l : List α)
    (h : ∀ x ∈ l, f x = 1) : (l.map f).sum = l.length := by
  induction l with
  | nil => rfl
  | cons a l ih =>
      simp only [List.map_cons, List.sum_cons, List.length_cons,
        h a (List.mem_cons_self a l)]
      rw [ih (fun x hx => h x (List.mem_cons_of_mem a hx))]
      omega

theorem shipping_keys_count (db : DB) (z : String)
    (hnda : (db.addresses.map (fun a => a.id)).Nodup)
    (hndo : (db.orders.map (fun o => o.id)).Nodup)
    (href : ∀ r ∈ db.order_shipping_addresses, ∃ o ∈ db.orders, o.id = r.1) :
    (((shippingZipRows db).filter
        (fun p => decide (p.1.type = AddressType.SHIPPING))).map
        (fun p => p.1.zip_code)).countP (fun x => decide (x = z)) =
      shippingZipAssocCount db z := by
  rw [List.countP_map, List.countP_filter, shippingZipRows, countP_flatMap]
  simp only [countP_flatMap, List.countP_map, List.countP_filter,
    Function.comp]
  have hinner : ∀ a : Address,
      ((db.order_shipping_addresses.filter
        (fun r => decide (a.id = r.2))).map
        (fun r => db.orders.countP (fun o =>
          (decide (a.zip_code = z) &&
            decide (a.type = AddressType.SHIPPING)) &&
          decide (r.1 = o.id)))).sum =
      db.order_shipping_addresses.countP (fun r =>
        (decide (a.zip_code = z) && decide (a.type = AddressType.SHIPPING)) &&
        decide (a.id = r.2)) := by
    intro a
    cases hza : (decide (a.zip_code = z) &&
        decide (a.type = AddressType.SHIPPING)) with
    | false => simp
    | true =>
        simp only [Bool.true_and]
        have hone : ∀ r ∈ db.order_shipping_addresses.filter
            (fun r => decide (a.id = r.2)),
            db.orders.countP (fun o => decide (r.1 = o.id)) = 1 := by
          intro r hr
          obtain ⟨o, ho, hoid⟩ := href r (List.mem_of_mem_filter hr)
          have hkey := countP_unique_key (fun o => o.id)
            (fun o => decide (r.1 = o.id)) r.1
            (fun o' ho' => (of_decide_eq_true ho').symm) db.orders hndo
          rw [hkey, if_pos]
          apply List.any_eq_true.mpr
          exact ⟨o, ho, by simp [hoid]⟩
        rw [sum_map_eq_length _ _ hone, List.countP_eq_length_filter]
  rw [List.map_congr_left (fun a _ => hinner a)]
  have hone2 : ∀ row : Nat × Nat, db.addresses.countP
      (fun a => (decide (a.zip_code = z) &&
        decide (a.type = AddressType.SHIPPING)) &&
        decide (a.id = row.2)) =
      if db.addresses.any (fun a => (decide (a.zip_code = z) &&
        decide (a.type = AddressType.SHIPPING)) &&
        decide (a.id = row.2)) then 1 else 0 := by
    intro row
    refine countP_unique_key (fun a => a.id) _ row.2 ?_ db.addresses hnda
    intro a ha
    exact of_decide_eq_true ((Bool.and_eq_true _ _).mp ha).2
  rw [sum_countP_eq_countP_any db.addresses _ hone2
    db.order_shipping_addresses]
  rw [shippingZipAssocCount]
  congr 1
  funext r
  congr 1
  funext a
  simp only [Bool.decide_and]
  cases h1 : decide (a.zip_code = z) <;>
    cases h2 : decide (a.type = AddressType.SHIPPING) <;>
      cases h3 : decide (a.id = r.2) <;> simp

/-- C7: the shipping-zip aggregation reports, for each zip code, exactly
the number of order-shipping association rows whose address is an existing
SHIPPING-typed address with that zip — counting one per association row,
not per distinct order — and the output is sorted by count in the
requested direction. Hypotheses: primary-key uniqueness of address and
order ids and referential integrity of the association rows' order ids. -/
theorem orders_by_shipping_zip_characterization (db : DB) (ascending : Bool)
    (hnda : (db.addresses.map (fun a => a.id)).Nodup)
    (hndo : (db.orders.map (fun o => o.id)).Nodup)
    (href : ∀ r ∈ db.order_shipping_addresses, ∃ o ∈ db.orders, o.id = r.1) :
    (∀ z c, ({ zip_code := z, order_count := c } : ZipCodeAnalytics) ∈
        get_orders_by_zip_code db false ascending ↔
      (c = shippingZipAssocCount db z ∧ c ≠ 0)) ∧
    (ascending = true →
      List.Sorted (fun p q : ZipCodeAnalytics => p.order_count ≤ q.order_count)
        (get_orders_by_zip_code db false ascending)) ∧
    (ascending = false →
      List.Sorted (fun p q : ZipCodeAnalytics => q.order_count ≤ p.order_count)
        (get_orders_by_zip_code db false ascending)) := by
  refine ⟨?_, ?_, ?_⟩
  · intro z c
    have hk := shipping_keys_count db z hnda hndo href
    cases ascending with
    | false =>
        simp only [get_orders_by_zip_code, reduceIte]
        rw [if_neg Bool.false_ne_true, if_neg Bool.false_ne_true,
          List.mem_map]
        constructor
        · rintro ⟨p, hp, hpe⟩
          obtain ⟨zz, k⟩ := p
          obtain ⟨h1, h2⟩ := (ZipCodeAnalytics.mk.injEq _ _ _ _).mp hpe.symm
          subst h1
          subst h2
          rw [mem_sortedGroup] at hp
          exact ⟨by rw [hp.1, hk], hp.2⟩
        · rintro ⟨hc, hne⟩
          refine ⟨(z, c), ?_, rfl⟩
          rw [mem_sortedGroup]
          exact ⟨by rw [hc, hk], hne⟩
    | true =>
        simp only [get_orders_by_zip_code, reduceIte]
        rw [if_neg Bool.false_ne_true, List.mem_map]
        constructor
        · rintro ⟨p, hp, hpe⟩
          obtain ⟨zz, k⟩ := p
          obtain ⟨h1, h2⟩ := (ZipCodeAnalytics.mk.injEq _ _ _ _).mp hpe.symm
          subst h1
          subst h2
          rw [mem_sortedGroup] at hp
          exact ⟨by rw [hp.1, hk], hp.2⟩
        · rintro ⟨hc, hne⟩
          refine ⟨(z, c), ?_, rfl⟩
          rw [mem_sortedGroup]
          exact ⟨by rw [hc, hk], hne⟩
  · rintro rfl
    simp only [get_orders_by_zip_code, reduceIte]
    rw [if_neg Bool.false_ne_true]
    exact List.Pairwise.map _ (fun a b hab => hab)
      (List.sorted_insertionSort _ _)
  · rintro rfl
    simp only [get_orders_by_zip_code, reduceIte]
    rw [if_neg Bool.false_ne_true, if_neg Bool.false_ne_true]
    exact List.Pairwise.map _ (fun a b hab => hab)
      (List.sorted_insertionSort _ _)

theorem map_fn_const {α κ : Type} (l : List α) (k : κ) :
    l.map (fun _ => k) = List.replicate l.length k := by
  induction l with
  | nil => rfl
  | cons a l ih => simp [List.replicate_succ, ih]

theorem numDistinct_cons_mem {κ : Type} [DecidableEq κ] {k : κ} {l : List κ}
    (h : k ∈ l) : numDistinct (k :: l) = numDistinct l := by
  simp [numDistinct, h]

theorem numDistinct_cons_not_mem {κ : Type} [DecidableEq κ] {k : κ}
    {l : List κ} (h : k ∉ l) : numDistinct (k :: l) = numDistinct l + 1 := by
  simp [numDistinct, h]

theorem numDistinct_replicate_append {κ : Type} [DecidableEq κ] (n : Nat)
    (k : κ) (rest : List κ) :
    numDistinct (List.replicate (n + 1) k ++ rest) =
      numDistinct (k :: rest) := by
  induction n with
  | zero => rfl
  | succ n ih =>
      rw [List.replicate_succ, List.cons_append,
        numDistinct_cons_mem (List.mem_append_left _
          (List.mem_replicate.mpr ⟨Nat.succ_ne_zero n, rfl⟩)), ih]

theorem numDistinct_flatMap_replicate {α κ : Type} [DecidableEq κ]
    (keyN : α → Nat) (keyF : α → κ) (n : α → Nat)
    (hinj : ∀ a b, keyF a = keyF b → keyN a = keyN b) :
    ∀ A : List α, (A.map keyN).Nodup →
      numDistinct (A.flatMap (fun a => List.replicate (n a) (keyF a))) =
        A.countP (fun a => decide (n a ≠ 0)) := by
  intro A
  induction A with
  | nil => intro _; rfl
  | cons a A ih =>
      intro hnd
      rw [List.map_cons, List.nodup_cons] at hnd
      obtain ⟨hka, hnd'⟩ := hnd
      rw [List.flatMap_cons, List.countP_cons]
      cases hn : n a with
      | zero =>
          simp only [List.replicate_zero, List.nil_append]
          rw [ih hnd']
          simp
      | succ m =>
          have hknotin : keyF a ∉ A.flatMap
              (fun a => List.replicate (n a) (keyF a)) := by
            intro hmem
            rw [List.mem_flatMap] at hmem
            obtain ⟨b, hb, hkb⟩ := hmem
            rw [List.mem_replicate] at hkb
            have hkn : keyN a = keyN b := hinj a b hkb.2
            exact hka (hkn ▸ List.mem_map_of_mem keyN hb)
          rw [numDistinct_replicate_append,
            numDistinct_cons_not_mem hknotin, ih hnd']
          have hd : decide (m + 1 ≠ 0) = true := by simp
          rw [hd, if_pos rfl]

theorem decide_countP_ne_zero {α : Type} (p : α → Bool) (l : List α) :
    decide (l.countP p ≠ 0) = l.any p := by
  cases h : l.any p with
  | true =>
      obtain ⟨x, hx, hpx⟩ := List.any_eq_true.mp h
      have hne : l.countP p ≠ 0 := by
        intro h0
        exact absurd hpx (by simpa using List.countP_eq_zero.mp h0 x hx)
      simp [hne]
  | false =>
      have hz : l.countP p = 0 :=
        List.countP_eq_zero.mpr (List.any_eq_false.mp h)
      simp [hz]

theorem top_keys_count (db : DB) (c : Customer)
    (hndc : (db.customers.map (fun x => x.id)).Nodup)
    (hc : c ∈ db.customers) :
    (db.customers.flatMap (fun x =>
      (db.orders.filter (fun o =>
        decide (o.customer_id = x.id ∧
          o.order_type = OrderType.IN_STORE))).map
        (fun _ => (x.id, x.first_name, x.last_name)))).countP
      (fun k => decide (k = (c.id, c.first_name, c.last_name))) =
    inStoreOrderCountOf db c.id := by
  rw [countP_flatMap]
  have hpiece : ∀ x : Customer,
      ((db.orders.filter (fun o =>
        decide (o.customer_id = x.id ∧
          o.order_type = OrderType.IN_STORE))).map
        (fun _ => (x.id, x.first_name, x.last_name))).countP
        (fun k => decide (k = (c.id, c.first_name, c.last_name))) =
      if decide ((x.id, x.first_name, x.last_name) =
          (c.id, c.first_name, c.last_name)) then
        db.orders.countP (fun o => decide (o.customer_id = x.id ∧
          o.order_type = OrderType.IN_STORE))
      else 0 := by
    intro x
    simp only [List.countP_map, Function.comp]
    cases hd : decide ((x.id, x.first_name, x.last_name) =
        (c.id, c.first_name, c.last_name)) with
    | false =>
        have htr : ¬ (x.id, x.first_name, x.last_name) =
            (c.id, c.first_name, c.last_name) := of_decide_eq_false hd
        simp
        intro a ha hcu hty hid hfn hln
        exact htr (by rw [hid, hfn, hln])
    | true =>
        have heq := of_decide_eq_true hd
        have h1 : x.id = c.id := congrArg (fun t => t.1) heq
        have h2 : x.first_name = c.first_name := congrArg (fun t => t.2.1) heq
        have h3 : x.last_name = c.last_name := congrArg (fun t => t.2.2) heq
        simp [h1, h2, h3, List.countP_eq_length_filter]
  rw [List.map_congr_left (fun x _ => hpiece x)]
  rw [inStoreOrderCountOf]
  exact sum_map_ite_unique (fun x => x.id)
    (fun x => decide ((x.id, x.first_name, x.last_name) =
      (c.id, c.first_name, c.last_name)))
    (fun x => db.orders.countP (fun o => decide (o.customer_id = x.id ∧
      o.order_type = OrderType.IN_STORE)))
    c (fun x hx => congrArg (fun t => t.1) (of_decide_eq_true hx))
    (by simp) db.customers hndc hc

theorem top_keys_numDistinct (db : DB)
    (hndc : (db.customers.map (fun x => x.id)).Nodup) :
    numDistinct (db.customers.flatMap (fun x =>
      (db.orders.filter (fun o =>
        decide (o.customer_id = x.id ∧
          o.order_type = OrderType.IN_STORE))).map
        (fun _ => (x.id, x.first_name, x.last_name)))) =
    customersWithInStoreOrders db := by
  have hshow : (fun x : Customer =>
      (db.orders.filter (fun o =>
        decide (o.customer_id = x.id ∧
          o.order_type = OrderType.IN_STORE))).map
        (fun _ => (x.id, x.first_name, x.last_name))) =
      (fun x : Customer =>
        List.replicate ((db.orders.filter (fun o =>
          decide (o.customer_id = x.id ∧
            o.order_type = OrderType.IN_STORE))).length)
          (x.id, x.first_name, x.last_name)) :=
    funext (fun x => map_fn_const _ _)
  rw [hshow]
  rw [numDistinct_flatMap_replicate (fun x => x.id)
    (fun x => (x.id, x.first_name, x.last_name))
    (fun x => (db.orders.filter (fun o =>
      decide (o.customer_id = x.id ∧
        o.order_type = OrderType.IN_STORE))).length)
    (fun a b hab => congrArg (fun t => t.1) hab)
    db.customers hndc]
  rw [customersWithInStoreOrders]
  congr 1
  funext x
  rw [← List.countP_eq_length_filter]
  exact decide_countP_ne_zero _ _

/-- C8: the top-in-store-customers operation returns rows, one per
customer, whose count is exactly that customer's number of IN_STORE
orders and is nonzero; the output length is the minimum of `limit` and
the number of customers having at least one IN_STORE order (so at most
`limit`, fewer when fewer such customers exist); the rows are sorted
descending by count; and a customer with zero in-store orders never
appears. -/
theorem top_in_store_customers_characterization (db : DB) (limit : Nat)
    (hndc : (db.customers.map (fun x => x.id)).Nodup) :
    (∀ e ∈ get_top_in_store_customers db limit, ∃ c ∈ db.customers,
        e.customer_id = c.id ∧ e.first_name = c.first_name ∧
        e.last_name = c.last_name ∧
        e.order_count = inStoreOrderCountOf db c.id ∧ e.order_count ≠ 0) ∧
    (get_top_in_store_customers db limit).length =
      min limit (customersWithInStoreOrders db) ∧
    List.Sorted (fun p q : TopCustomer => q.order_count ≤ p.order_count)
      (get_top_in_store_customers db limit) ∧
    (∀ c ∈ db.customers, inStoreOrderCountOf db c.id = 0 →
      ∀ e ∈ get_top_in_store_customers db limit, e.customer_id ≠ c.id) := by
  have hmem : ∀ e ∈ get_top_in_store_customers db limit, ∃ c ∈ db.customers,
      e.customer_id = c.id ∧ e.first_name = c.first_name ∧
      e.last_name = c.last_name ∧
      e.order_count = inStoreOrderCountOf db c.id ∧ e.order_count ≠ 0 := by
    intro e he
    simp only [get_top_in_store_customers] at he
    rw [List.mem_map] at he
    obtain ⟨p, hp, rfl⟩ := he
    have hp' := List.Sublist.mem hp (List.take_sublist _ _)
    obtain ⟨k, cnt⟩ := p
    rw [mem_sortedGroup] at hp'
    obtain ⟨hcnt, hne⟩ := hp'
    have hkin : k ∈ db.customers.flatMap (fun x =>
        (db.orders.filter (fun o =>
          decide (o.customer_id = x.id ∧
            o.order_type = OrderType.IN_STORE))).map
          (fun _ => (x.id, x.first_name, x.last_name))) :=
      mem_of_countP_pos (by rw [← hcnt]; exact hne)
    rw [List.mem_flatMap] at hkin
    obtain ⟨c, hcmem, hk⟩ := hkin
    rw [List.mem_map] at hk
    obtain ⟨o, _, hko⟩ := hk
    subst hko
    refine ⟨c, hcmem, rfl, rfl, rfl, ?_, hne⟩
    rw [hcnt]
    exact top_keys_count db c hndc hcmem
  have hlen : (get_top_in_store_customers db limit).length =
      min limit (customersWithInStoreOrders db) := by
    simp only [get_top_in_store_customers]
    rw [List.length_map, List.length_take,
      (List.perm_insertionSort _ _).length_eq, sqlGroupCount,
      sqlGroupCountAux_length, top_keys_numDistinct db hndc]
  have hsort : List.Sorted
      (fun p q : TopCustomer => q.order_count ≤ p.order_count)
      (get_top_in_store_customers db limit) := by
    simp only [get_top_in_store_customers]
    exact List.Pairwise.map _ (fun a b hab => hab)
      (List.Pairwise.sublist (List.take_sublist _ _)
        (List.sorted_insertionSort _ _))
  refine ⟨hmem, hlen, hsort, ?_⟩
  intro c hc h0 e he heq
  obtain ⟨c', hc', he1, _, _, he4, he5⟩ := hmem e he
  have hid : c'.id = c.id := he1.symm.trans heq
  exact he5 (he4.trans (by rw [hid]; exact h0))

/-- C10: shipping-address attachment ignores the address's type — an
existing BILLING-typed address whose id appears in the requested shipping
list is attached to the order — while the shipping-zip aggregation keeps
only SHIPPING-typed addresses, so over a store whose addresses are all
BILLING-typed the shipping aggregation reports nothing. -/
theorem billing_addresses_attached_but_excluded (db : DB)
    (customer_id : Nat) (order : OrderCreate) (now : Nat) :
    (∀ a ∈ db.addresses, a.type = AddressType.BILLING →
      a.id ∈ order.shipping_address_ids →
      ((create_order db customer_id order now).2.id, a.id) ∈
        (create_order db customer_id order now).1.order_shipping_addresses) ∧
    ((∀ a ∈ db.addresses, a.type = AddressType.BILLING) →
      ∀ ascending, get_orders_by_zip_code db false ascending = []) := by
  constructor
  · intro a ha _ hin
    have hne : ¬ order.shipping_address_ids.isEmpty = true := by
      cases h : order.shipping_address_ids with
      | nil => rw [h] at hin; cases hin
      | cons x xs => simp [h]
    simp only [create_order, if_neg hne]
    apply List.mem_append_right
    exact List.mem_map_of_mem _
      (List.mem_filter.mpr ⟨ha, by simpa using hin⟩)
  · intro hall ascending
    have hkeys : ((shippingZipRows db).filter
        (fun p => decide (p.1.type = AddressType.SHIPPING))).map
        (fun p => p.1.zip_code) = ([] : List String) := by
      have hfil : (shippingZipRows db).filter
          (fun p => decide (p.1.type = AddressType.SHIPPING)) = [] := by
        rw [List.filter_eq_nil_iff]
        intro p hp
        have hpa : p.1 ∈ db.addresses := by
          rw [shippingZipRows, List.mem_flatMap] at hp
          obtain ⟨a, haddr, hpmem⟩ := hp
          rw [List.mem_flatMap] at hpmem
          obtain ⟨r, _, hpmem2⟩ := hpmem
          rw [List.mem_map] at hpmem2
          obtain ⟨o, _, rfl⟩ := hpmem2
          exact haddr
        simp [hall p.1 hpa]
      rw [hfil]
      rfl
    simp only [get_orders_by_zip_code]
    rw [if_neg Bool.false_ne_true, hkeys]
    cases ascending <;> rfl

/-- Witness for C10: a store whose only address is BILLING-typed — an
order requesting it as shipping destination gets it attached, and the
shipping-zip aggregation over that store is empty. -/
theorem billing_attached_but_excluded_witness :
    ((1, 1) ∈ (create_order
        ⟨[], [⟨1, 1, AddressType.BILLING, "s", "c", "st", "12345", 0, none⟩],
          [], []⟩
        1 ⟨OrderType.ONLINE, 5, 1, [1]⟩ 0).1.order_shipping_addresses) ∧
    get_orders_by_zip_code
      ⟨[], [⟨1, 1, AddressType.BILLING, "s", "c", "st", "12345", 0, none⟩],
        [], []⟩ false true = [] :=
  ⟨(billing_addresses_attached_but_excluded
      ⟨[], [⟨1, 1, AddressType.BILLING, "s", "c", "st", "12345", 0, none⟩],
        [], []⟩
      1 ⟨OrderType.ONLINE, 5, 1, [1]⟩ 0).1
      ⟨1, 1, AddressType.BILLING, "s", "c", "st", "12345", 0, none⟩
      (by decide) rfl (by decide),
   (billing_addresses_attached_but_excluded
      ⟨[], [⟨1, 1, AddressType.BILLING, "s", "c", "st", "12345", 0, none⟩],
        [], []⟩
      1 ⟨OrderType.ONLINE, 5, 1, [1]⟩ 0).2 (by decide) true⟩

/-- Witness for C6: one BILLING address with zip 12345 and one order
billed to it — the billing aggregation reports (12345, 1). -/
theorem orders_by_billing_zip_witness :
    ({ zip_code := "12345", order_count := 1 } : ZipCodeAnalytics) ∈
      get_orders_by_zip_code
        ⟨[], [⟨1, 1, AddressType.BILLING, "s", "c", "st", "12345", 0, none⟩],
          [⟨1, 1, OrderType.ONLINE, 5, 1, 0, none⟩], []⟩ true true :=
  ((orders_by_billing_zip_characterization
      ⟨[], [⟨1, 1, AddressType.BILLING, "s", "c", "st", "12345", 0, none⟩],
        [⟨1, 1, OrderType.ONLINE, 5, 1, 0, none⟩], []⟩
      true (by decide)).1 "12345" 1).mpr ⟨by decide, by decide⟩

/-- Witness for C7: one SHIPPING address with zip 54321, one order, one
association row — the shipping aggregation reports (54321, 1). -/
theorem orders_by_shipping_zip_witness :
    ({ zip_code := "54321", order_count := 1 } : ZipCodeAnalytics) ∈
      get_orders_by_zip_code
        ⟨[], [⟨1, 1, AddressType.SHIPPING, "s", "c", "st", "54321", 0, none⟩],
          [⟨1, 1, OrderType.ONLINE, 5, 1, 0, none⟩], [(1, 1)]⟩ false true :=
  ((orders_by_shipping_zip_characterization
      ⟨[], [⟨1, 1, AddressType.SHIPPING, "s", "c", "st", "54321", 0, none⟩],
        [⟨1, 1, OrderType.ONLINE, 5, 1, 0, none⟩], [(1, 1)]⟩
      true (by decide) (by decide) (by decide)).1 "54321" 1).mpr
    ⟨by decide, by decide⟩

/-- Witness for C8: one customer with one IN_STORE order — the top-5 list
has length min 5 1 = 1. -/
theorem top_in_store_customers_witness :
    (get_top_in_store_customers
      ⟨[⟨1, "t", "e", some "J", some "D", 0, none⟩], [],
        [⟨1, 1, OrderType.IN_STORE, 5, 1, 0, none⟩], []⟩ 5).length =
      min 5 (customersWithInStoreOrders
        ⟨[⟨1, "t", "e", some "J", some "D", 0, none⟩], [],
          [⟨1, 1, OrderType.IN_STORE, 5, 1, 0, none⟩], []⟩) :=
  (top_in_store_customers_characterization
    ⟨[⟨1, "t", "e", some "J", some "D", 0, none⟩], [],
      [⟨1, 1, OrderType.IN_STORE, 5, 1, 0, none⟩], []⟩ 5 (by decide)).2.1

/-- Witness for C1: an order requesting shipping ids [1, 99] against a
store whose only address has id 1 gets address 1 attached. -/
theorem create_order_attaches_witness :
    (1, 1) ∈ (create_order
      ⟨[], [⟨1, 1, AddressType.SHIPPING, "s", "c", "st", "00000", 0, none⟩],
        [], []⟩
      1 ⟨OrderType.ONLINE, 5, 1, [1, 99]⟩ 0).1.order_shipping_addresses :=
  ((create_order_attaches_existing_subset
      ⟨[], [⟨1, 1, AddressType.SHIPPING, "s", "c", "st", "00000", 0, none⟩],
        [], []⟩
      1 ⟨OrderType.ONLINE, 5, 1, [1, 99]⟩ 0).2 1).mpr
    (Or.inr ⟨by decide,
      ⟨1, 1, AddressType.SHIPPING, "s", "c", "st", "00000", 0, none⟩,
      by decide, rfl⟩)

/-- Witness for C4 (amended): a created order stores the given total
amount verbatim. -/
theorem create_order_total_amount_witness :
    (create_order ⟨[], [], [], []⟩ 1
      ⟨OrderType.ONLINE, 7, 1, []⟩ 0).2.total_amount = 7 :=
  (create_order_total_amount_stored_verbatim ⟨[], [], [], []⟩ 1
    ⟨OrderType.ONLINE, 7, 1, []⟩ 0).2

/-- Witness for C9: a store with one IN_STORE order created at timestamp 0
reports the single entry (hour 0, count 1). -/
theorem in_store_hours_witness :
    ({ hour := 0, order_count := 1 } : InStoreAnalytics) ∈
      get_in_store_purchase_hours
        ⟨[], [], [⟨1, 1, OrderType.IN_STORE, 5, 1, 0, none⟩], []⟩ :=
  ((in_store_hours_characterization
      ⟨[], [], [⟨1, 1, OrderType.IN_STORE, 5, 1, 0, none⟩], []⟩).1 0 1).mpr
    ⟨by decide, by decide⟩

end RgCrm
